import Mathlib

/-!
Shallow embedding of the two stateful core components of the bot repository:
the sliding-window rate limiter (`rate_limiter.py`) and the conversation
history store (`utils/conversation_manager.py`).

Modelling conventions:
* Wall-clock instants (Python `time.time()` floats) are modelled as `Int`;
  consequently Python's `int(...)` truncation in `retry_after` is the identity.
* Python `dict` / `defaultdict` values are modelled as association lists
  (`List (Int × α)`) in insertion order; a `defaultdict` access that
  auto-creates a default entry is modelled by reading with a default and
  writing the entry back (`alSet`), which is a no-op on present keys.
* Python `deque` queues are `List Int`, oldest first; the `while ... popleft`
  purge loop is `List.dropWhile`.
* Mutating methods are state-passing functions returning the new store.
-/

/-- First binding of key `k` in an association list, as Python `d[k]` lookup. -/
def alGet {α : Type} (m : List (Int × α)) (k : Int) : Option α :=
  match m with
  | [] => none
  | (k', v) :: rest => if k' = k then some v else alGet rest k

/-- Set key `k` to `v`: update the first binding in place, or append a new
binding at the end (Python dicts keep insertion order). -/
def alSet {α : Type} (m : List (Int × α)) (k : Int) (v : α) : List (Int × α) :=
  match m with
  | [] => [(k, v)]
  | (k', v') :: rest => if k' = k then (k, v) :: rest else (k', v') :: alSet rest k v

/-! ## Rate limiter (`rate_limiter.py`) -/

/-- Per-user counters, `RateLimiter.user_stats` values. -/
structure UserStats where
  total_requests : Nat
  blocked_requests : Nat
  first_request : Option Int
  last_request : Option Int
deriving Repr, DecidableEq

/-- The `defaultdict` default for `user_stats`. -/
def UserStats.initial : UserStats :=
  { total_requests := 0, blocked_requests := 0, first_request := none, last_request := none }

/-- The `rate_limit_info` dictionary returned by `is_allowed`. -/
structure RateInfo where
  remaining : Int
  reset_at : Int
  retry_after : Int
deriving Repr, DecidableEq

/-- State of `RateLimiter`: configuration plus the two per-user maps. -/
structure RateLimiter where
  max_requests : Int
  window_seconds : Int
  user_requests : List (Int × List Int)
  user_stats : List (Int × UserStats)
deriving Repr, DecidableEq

/-- `RateLimiter.__init__`: stores the configuration verbatim, with empty maps.
No validation is performed on the arguments. -/
def RateLimiter.init (max_requests window_seconds : Int) : RateLimiter :=
  { max_requests := max_requests, window_seconds := window_seconds,
    user_requests := [], user_stats := [] }

/-- The stored timestamp queue of a user (empty when absent). -/
def RateLimiter.queueOf (rl : RateLimiter) (uid : Int) : List Int :=
  (alGet rl.user_requests uid).getD []

/-- `RateLimiter.is_allowed(user_id)` with `time.time()` passed in as `now`.
Purges queue entries `≤ now - window_seconds`, bumps the counters, then either
denies (queue length at the limit; the purged queue is still persisted, as the
Python deque is mutated in place) or records `now` and allows.
The denial branch reads `user_queue[0]`: on an empty deque (reachable exactly
when `max_requests ≤ 0`) CPython raises `IndexError` there instead of
returning — modelled as `none` in the result slot, with the state keeping
every mutation made before the raise (the purge and all counter updates,
including `blocked_requests`, happen first). -/
def RateLimiter.is_allowed (rl : RateLimiter) (uid : Int) (now : Int) :
    Option (Bool × RateInfo) × RateLimiter :=
  let q0 := rl.queueOf uid
  let q := q0.dropWhile (fun s => decide (s ≤ now - rl.window_seconds))
  let st0 := (alGet rl.user_stats uid).getD UserStats.initial
  let st1 : UserStats :=
    { total_requests := st0.total_requests + 1,
      blocked_requests := st0.blocked_requests,
      first_request := some (st0.first_request.getD now),
      last_request := some now }
  if rl.max_requests ≤ (q.length : Int) then
    let st2 := { st1 with blocked_requests := st1.blocked_requests + 1 }
    let rl' : RateLimiter :=
      { rl with user_requests := alSet rl.user_requests uid q,
                user_stats := alSet rl.user_stats uid st2 }
    match q with
    | [] => (none, rl')
    | oldest :: _ =>
      let reset := oldest + rl.window_seconds
      (some (false, { remaining := 0, reset_at := reset, retry_after := reset - now }), rl')
  else
    let q2 := q ++ [now]
    (some (true, { remaining := rl.max_requests - (q2.length : Int),
                   reset_at := now + rl.window_seconds, retry_after := 0 }),
     { rl with user_requests := alSet rl.user_requests uid q2,
               user_stats := alSet rl.user_stats uid st1 })

/-- Report returned by `RateLimiter.get_user_stats`. -/
structure UserStatsReport where
  total_requests : Nat
  blocked_requests : Nat
  first_request : Option Int
  last_request : Option Int
  current_requests_in_window : Nat
  remaining_requests : Int
deriving Repr, DecidableEq

/-- `RateLimiter.get_user_stats(user_id)`: copies the stored counters and
reports the raw queue length. Takes no clock argument — the Python body never
calls `time.time()` and performs no purge. The two `defaultdict` accesses
create default entries for an unseen user, modelled by writing back. -/
def RateLimiter.get_user_stats (rl : RateLimiter) (uid : Int) :
    UserStatsReport × RateLimiter :=
  let st := (alGet rl.user_stats uid).getD UserStats.initial
  let q := rl.queueOf uid
  ({ total_requests := st.total_requests,
     blocked_requests := st.blocked_requests,
     first_request := st.first_request,
     last_request := st.last_request,
     current_requests_in_window := q.length,
     remaining_requests := max 0 (rl.max_requests - (q.length : Int)) },
   { rl with user_stats := alSet rl.user_stats uid st,
             user_requests := alSet rl.user_requests uid q })

/-- Report returned by `RateLimiter.get_global_stats`; Python's float
`success_rate` is modelled as an exact rational. -/
structure GlobalStats where
  total_users : Nat
  active_users : Nat
  total_requests : Nat
  blocked_requests : Nat
  success_rate : ℚ
  max_requests_per_window : Int
  window_seconds : Int
deriving Repr, DecidableEq

/-- `RateLimiter.get_global_stats()`: aggregates the stored maps as they are;
`active_users` counts users whose stored queue is non-empty (no purge, and no
clock argument — the Python body never calls `time.time()`). -/
def RateLimiter.get_global_stats (rl : RateLimiter) : GlobalStats :=
  let total := (rl.user_stats.map (fun p => p.2.total_requests)).sum
  let blocked := (rl.user_stats.map (fun p => p.2.blocked_requests)).sum
  { total_users := rl.user_stats.length,
    active_users := (rl.user_requests.filter (fun p => !p.2.isEmpty)).length,
    total_requests := total,
    blocked_requests := blocked,
    success_rate := if 0 < total then ((total : ℚ) - (blocked : ℚ)) / (total : ℚ) else 1,
    max_requests_per_window := rl.max_requests,
    window_seconds := rl.window_seconds }

/-- Run a sequence of `is_allowed` calls for one user at the given instants,
returning per call the instant and the outcome — `some allowed` for a normal
return, `none` for a raised `IndexError` (which aborts only that call; the
limiter object and its state survive for the next call) — plus the final
state. -/
def RateLimiter.runCalls (rl : RateLimiter) (uid : Int) (ts : List Int) :
    List (Int × Option Bool) × RateLimiter :=
  match ts with
  | [] => ([], rl)
  | t :: rest =>
    let r := rl.is_allowed uid t
    let tail := RateLimiter.runCalls r.2 uid rest
    ((t, r.1.map Prod.fst) :: tail.1, tail.2)

/-- One `is_allowed` call viewed on a single user's timestamp queue alone
(the purge / length test / append portion of the body). -/
def stepQ (maxR w : Int) (q : List Int) (t : Int) : Bool × List Int :=
  let q' := q.dropWhile (fun s => decide (s ≤ t - w))
  if maxR ≤ (q'.length : Int) then (false, q') else (true, q' ++ [t])

/-- Iterate `stepQ` over a list of call instants. -/
def runQ (maxR w : Int) (q : List Int) (ts : List Int) : List (Int × Bool) × List Int :=
  match ts with
  | [] => ([], q)
  | t :: rest =>
    let r := stepQ maxR w q t
    let tail := runQ maxR w r.2 rest
    ((t, r.1) :: tail.1, tail.2)

/-- Membership of instant `t` in the half-open window `(x, x + w]`
(an interval of length `w`). -/
def inWin (x w t : Int) : Bool := decide (x < t) && decide (t ≤ x + w)

/-- How many instants of `l` fall in the window `(x, x + w]`. -/
def countW (l : List Int) (x w : Int) : Nat := (l.filter (inWin x w)).length

/-- The instants of the `runCalls` entries that returned `allowed = true`
(raised calls, recorded as `none`, are not counted). -/
def allowedTimes (res : List (Int × Option Bool)) : List Int :=
  (res.filter (fun p => p.2 == some true)).map Prod.fst

/-- The instants of the `runQ` steps whose flag is `true`. -/
def allowedTimesQ (res : List (Int × Bool)) : List Int :=
  (res.filter (fun p => p.2)).map Prod.fst

/-- The number of identities whose queue is non-empty after purging entries
older than `now - window_seconds`, written from the claim's words for
comparison with what `RateLimiter.get_global_stats` actually reports. -/
def activeUsersAfterPurge (rl : RateLimiter) (now : Int) : Nat :=
  (rl.user_requests.filter
    (fun p => !(p.2.dropWhile (fun s => decide (s ≤ now - rl.window_seconds))).isEmpty)).length

/-! ## Conversation store (`utils/conversation_manager.py`) -/

/-- A stored message (`{'role', 'content', 'timestamp'}`). -/
structure Message where
  role : String
  content : String
  timestamp : Int
deriving Repr, DecidableEq

/-- One user's record (`{'messages', 'created_at', 'last_activity'}`). -/
structure Conversation where
  messages : List Message
  created_at : Int
  last_activity : Int
deriving Repr, DecidableEq

/-- State of `ConversationManager`: configuration plus the per-user map. -/
structure ConversationManager where
  max_history : Int
  timeout_seconds : Int
  conversations : List (Int × Conversation)
deriving Repr, DecidableEq

/-- `ConversationManager.__init__`: stores the configuration verbatim with no
validation, and an empty map. -/
def ConversationManager.init (max_history timeout_seconds : Int) : ConversationManager :=
  { max_history := max_history, timeout_seconds := timeout_seconds, conversations := [] }

/-- The `defaultdict` default record: empty history rooted at the access time. -/
def Conversation.fresh (now : Int) : Conversation :=
  { messages := [], created_at := now, last_activity := now }

/-- Python slice `l[k:]` for an arbitrary (possibly negative) integer `k`:
a non-negative `k` drops the first `k` elements, a negative `k` keeps the last
`-k` elements. -/
def pySliceFrom {α : Type} (l : List α) (k : Int) : List α :=
  if k < 0 then l.drop (l.length - (-k).toNat) else l.drop k.toNat

/-- Role test used by the trimming partition. -/
def Message.isSystem (m : Message) : Bool := m.role == "system"

/-- The trimming block of `add_message`: when the history exceeds
`max_history`, partition into system / non-system messages and replace the
non-system part by the Python slice
`other_messages[-(max_history - len(system_messages)):]` when it is longer
than `max_history - len(system_messages)`. -/
def trimMessages (max_history : Int) (msgs : List Message) : List Message :=
  if max_history < (msgs.length : Int) then
    let sysMsgs := msgs.filter Message.isSystem
    let otherMsgs := msgs.filter (fun m => ! m.isSystem)
    let kept := if max_history - (sysMsgs.length : Int) < (otherMsgs.length : Int)
                then pySliceFrom otherMsgs (-(max_history - (sysMsgs.length : Int)))
                else otherMsgs
    sysMsgs ++ kept
  else msgs

/-- `ConversationManager.add_message(user_id, role, content)` with
`time.time()` passed in as `now`: clears a timed-out history, appends the new
message, stamps `last_activity = now`, then trims via `trimMessages`. -/
def ConversationManager.add_message (cm : ConversationManager) (uid : Int)
    (role content : String) (now : Int) : ConversationManager :=
  let conv0 := (alGet cm.conversations uid).getD (Conversation.fresh now)
  let conv1 := if cm.timeout_seconds < now - conv0.last_activity
               then { conv0 with messages := [], created_at := now }
               else conv0
  let msgs := conv1.messages ++ [Message.mk role content now]
  let conv2 : Conversation :=
    { messages := trimMessages cm.max_history msgs,
      created_at := conv1.created_at,
      last_activity := now }
  { cm with conversations := alSet cm.conversations uid conv2 }

/-- `ConversationManager.get_conversation(user_id)` with `time.time()` as
`now`: returns `[]` for a timed-out record (without resetting it), else the
stored messages as `(role, content)` pairs. The `defaultdict` access creates a
fresh record for an unseen user, modelled by the write-back. -/
def ConversationManager.get_conversation (cm : ConversationManager) (uid : Int)
    (now : Int) : List (String × String) × ConversationManager :=
  let conv := (alGet cm.conversations uid).getD (Conversation.fresh now)
  let cm' := { cm with conversations := alSet cm.conversations uid conv }
  if cm.timeout_seconds < now - conv.last_activity then ([], cm')
  else (conv.messages.map (fun m => (m.role, m.content)), cm')

/-- Count occurrences of each role, in first-appearance order
(the `role_counts` loop of `get_user_stats`). -/
def bumpRole (acc : List (String × Nat)) (r : String) : List (String × Nat) :=
  match acc with
  | [] => [(r, 1)]
  | (r', n) :: rest => if r' == r then (r', n + 1) :: rest else (r', n) :: bumpRole rest r

/-- Report returned by `ConversationManager.get_user_stats`; the two
`strftime`-formatted fields are kept as the underlying raw instants, since the
calendar rendering is presentation-only. -/
structure ConvUserStats where
  message_count : Nat
  role_counts : List (String × Nat)
  created_at : Int
  last_activity : Int
  is_active : Bool
  timeout_in : Int
deriving Repr, DecidableEq

/-- `ConversationManager.get_user_stats(user_id)` with `time.time()` as `now`.
The `defaultdict` access creates a fresh record for an unseen user. -/
def ConversationManager.get_user_stats (cm : ConversationManager) (uid : Int)
    (now : Int) : ConvUserStats × ConversationManager :=
  let conv := (alGet cm.conversations uid).getD (Conversation.fresh now)
  ({ message_count := conv.messages.length,
     role_counts := conv.messages.foldl (fun acc m => bumpRole acc m.role) [],
     created_at := conv.created_at,
     last_activity := conv.last_activity,
     is_active := decide (now - conv.last_activity ≤ cm.timeout_seconds),
     timeout_in := max 0 (cm.timeout_seconds - (now - conv.last_activity)) },
   { cm with conversations := alSet cm.conversations uid conv })

/-- Report returned by `ConversationManager.get_global_stats`; the float
average is modelled as an exact rational. -/
structure ConvGlobalStats where
  total_users : Nat
  active_users : Nat
  total_messages : Nat
  average_messages_per_user : ℚ
  timeout_seconds : Int
  max_history_per_user : Int
deriving Repr, DecidableEq

/-- `ConversationManager.get_global_stats()` with `time.time()` as `now`. -/
def ConversationManager.get_global_stats (cm : ConversationManager) (now : Int) :
    ConvGlobalStats :=
  let totalMsgs := (cm.conversations.map (fun p => p.2.messages.length)).sum
  let totalUsers := cm.conversations.length
  { total_users := totalUsers,
    active_users := (cm.conversations.filter
      (fun p => decide (now - p.2.last_activity ≤ cm.timeout_seconds))).length,
    total_messages := totalMsgs,
    average_messages_per_user :=
      if 0 < totalUsers then (totalMsgs : ℚ) / (totalUsers : ℚ) else 0,
    timeout_seconds := cm.timeout_seconds,
    max_history_per_user := cm.max_history }

/-- `ConversationManager.cleanup_expired_conversations()` with `time.time()`
as `now`: deletes every record idle for more than `timeout_seconds * 2` and
returns how many were deleted. -/
def ConversationManager.cleanup_expired_conversations (cm : ConversationManager)
    (now : Int) : Nat × ConversationManager :=
  let keep : Int × Conversation → Bool :=
    fun p => ! decide (cm.timeout_seconds * 2 < now - p.2.last_activity)
  ((cm.conversations.filter (fun p => ! keep p)).length,
   { cm with conversations := cm.conversations.filter keep })

/-! ## Concrete example states used by witnesses and counterexamples -/

/-- Limiter with limit 1 per 60s after one allowed call at instant 0. -/
def exRL1 : RateLimiter := ((RateLimiter.init 1 60).is_allowed 7 0).2

/-- Limiter with limit 5 per 60s after one allowed call at instant 0; at any
instant past 60 its single stored timestamp is stale. -/
def exRL5 : RateLimiter := ((RateLimiter.init 5 60).is_allowed 7 0).2

/-- History bound 2: two system messages, then a third, non-system, message. -/
def exC2pre : ConversationManager :=
  ((ConversationManager.init 2 3600).add_message 1 "system" "s1" 0).add_message 1 "system" "s2" 1

/-- `exC2pre` after appending a non-system message: the trim slice `[-0:]`
keeps the non-system message. -/
def exC2 : ConversationManager := exC2pre.add_message 1 "user" "u1" 2

/-- History bound 2, at capacity with one system and one non-system message. -/
def exC6pre : ConversationManager :=
  ((ConversationManager.init 2 3600).add_message 1 "system" "a" 0).add_message 1 "user" "b" 1

/-- `exC6pre` after appending a second system message. -/
def exC6 : ConversationManager := exC6pre.add_message 1 "system" "c" 2

/-- A store holding one fresh single-message conversation for user 1. -/
def exCM4 : ConversationManager :=
  (ConversationManager.init 10 3600).add_message 1 "user" "hi" 0

/-- A store with one conversation idle since instant 0 and one last active at
instant 7000 (timeout 3600). -/
def exCM8 : ConversationManager :=
  ((ConversationManager.init 10 3600).add_message 1 "user" "old" 0).add_message 2 "user" "new" 7000

/-! ## Association-list lemmas -/

theorem alGet_alSet_self {α : Type} (m : List (Int × α)) (k : Int) (v : α) :
    alGet (alSet m k v) k = some v := by
  induction m with
  | nil => simp [alGet, alSet]
  | cons p rest ih =>
    by_cases h : p.1 = k
    · simp [alSet, alGet, h]
    · simp [alSet, alGet, h, ih]

theorem alSet_eq_self {α : Type} (m : List (Int × α)) (k : Int) (v : α)
    (h : alGet m k = some v) : alSet m k v = m := by
  induction m with
  | nil => simp [alGet] at h
  | cons p rest ih =>
    by_cases hk : p.1 = k
    · simp [alGet, hk] at h
      cases p with
      | mk k' v' =>
        simp only at hk h
        simp [alSet, hk, h]
    · simp [alGet, hk] at h
      simp [alSet, hk, ih h]

theorem length_alSet_of_none {α : Type} (m : List (Int × α)) (k : Int) (v : α)
    (h : alGet m k = none) : (alSet m k v).length = m.length + 1 := by
  induction m with
  | nil => simp [alSet]
  | cons p rest ih =>
    by_cases hk : p.1 = k
    · simp [alGet, hk] at h
    · simp [alGet, hk] at h
      simp [alSet, hk, ih h]

theorem alGet_eq_none_of_not_mem {α : Type} (m : List (Int × α)) (k : Int)
    (h : k ∉ m.map Prod.fst) : alGet m k = none := by
  induction m with
  | nil => simp [alGet]
  | cons p rest ih =>
    simp only [List.map_cons, List.mem_cons] at h
    push_neg at h
    have hk : p.1 ≠ k := fun he => h.1 he.symm
    simp [alGet, hk, ih h.2]

theorem alGet_filter_none {α : Type} (m : List (Int × α)) (f : Int × α → Bool) (k : Int)
    (h : alGet m k = none) : alGet (m.filter f) k = none := by
  induction m with
  | nil => simp [alGet]
  | cons p rest ih =>
    by_cases hk : p.1 = k
    · simp [alGet, hk] at h
    · simp only [alGet, hk, if_false] at h
      by_cases hf : f p
      · simp [List.filter_cons, hf, alGet, hk, ih h]
      · simp [List.filter_cons, hf, ih h]

theorem alGet_filter_some {α : Type} (m : List (Int × α)) (f : Int × α → Bool) (k : Int)
    (v : α) (hnd : (m.map Prod.fst).Nodup) (h : alGet m k = some v) :
    alGet (m.filter f) k = if f (k, v) then some v else none := by
  induction m with
  | nil => simp [alGet] at h
  | cons p rest ih =>
    have hnd2 : (p.1 :: rest.map Prod.fst).Nodup := by simpa using hnd
    obtain ⟨hnotin, hnd'⟩ := List.nodup_cons.mp hnd2
    by_cases hk : p.1 = k
    · have hv : p = (k, v) := by
        cases p with
        | mk k' v' =>
          simp only at hk
          subst hk
          simp [alGet] at h
          simp [h]
      have hrest : alGet rest k = none := by
        apply alGet_eq_none_of_not_mem
        rw [← hk]
        exact hnotin
      subst hv
      by_cases hf : f (k, v)
      · simp [List.filter_cons, hf, alGet]
      · simp [List.filter_cons, hf, alGet_filter_none rest f k hrest, hf]
    · simp only [alGet, hk, if_false] at h
      by_cases hf : f p
      · simp [List.filter_cons, hf, alGet, hk, ih hnd' h]
      · simp [List.filter_cons, hf, ih hnd' h]

/-! ## List lemmas -/

theorem length_filter_add_length_filter_not {α : Type} (l : List α) (p : α → Bool) :
    (l.filter p).length + (l.filter (fun a => !(p a))).length = l.length := by
  induction l with
  | nil => simp
  | cons a l ih =>
    by_cases h : p a <;> simp [List.filter_cons, h] <;> omega

theorem length_filter_mono {α : Type} (p q : α → Bool) (l : List α)
    (h : ∀ a, p a = true → q a = true) :
    (l.filter p).length ≤ (l.filter q).length := by
  induction l with
  | nil => simp
  | cons a l ih =>
    by_cases hq : q a
    · by_cases hp : p a <;> simp [List.filter_cons, hp, hq] <;> omega
    · have hp : p a = false := by
        cases hpa : p a
        · rfl
        · exact absurd (h a hpa) (by simp [hq])
      simpa [List.filter_cons, hp, hq] using ih

theorem dropWhile_le_eq_filter (c : Int) (l : List Int)
    (hl : List.Pairwise (· ≤ ·) l) :
    l.dropWhile (fun s => decide (s ≤ c)) = l.filter (fun s => decide (c < s)) := by
  induction l with
  | nil => rfl
  | cons a l ih =>
    obtain ⟨ha, hl'⟩ := List.pairwise_cons.mp hl
    by_cases hac : a ≤ c
    · simp [List.dropWhile_cons, List.filter_cons, hac, not_lt.mpr hac, ih hl']
    · have hca : c < a := not_le.mp hac
      have : l.filter (fun s => decide (c < s)) = l := by
        apply List.filter_eq_self.mpr
        intro b hb
        exact decide_eq_true (lt_of_lt_of_le hca (ha b hb))
      simp [List.dropWhile_cons, List.filter_cons, hac, hca, this]

/-! ## Reduction of `is_allowed` / `runCalls` to the single-queue view -/

theorem is_allowed_as_stepQ (rl : RateLimiter) (uid t : Int) :
    ((rl.is_allowed uid t).2).max_requests = rl.max_requests
    ∧ ((rl.is_allowed uid t).2).window_seconds = rl.window_seconds
    ∧ ((rl.is_allowed uid t).2).queueOf uid
        = (stepQ rl.max_requests rl.window_seconds (rl.queueOf uid) t).2
    ∧ (((rl.is_allowed uid t).1).map Prod.fst == some true)
        = (stepQ rl.max_requests rl.window_seconds (rl.queueOf uid) t).1 := by
  simp only [RateLimiter.is_allowed, stepQ, RateLimiter.queueOf]
  by_cases h : rl.max_requests ≤
      ((((alGet rl.user_requests uid).getD []).dropWhile
          (fun s => decide (s ≤ t - rl.window_seconds))).length : Int)
  · cases hq : ((alGet rl.user_requests uid).getD []).dropWhile
        (fun s => decide (s ≤ t - rl.window_seconds)) with
    | nil =>
      rw [hq] at h
      have h0 : rl.max_requests ≤ (0 : Int) := by simpa using h
      simp [h0, alGet_alSet_self]
    | cons a l =>
      rw [hq] at h
      have h1 : rl.max_requests ≤ (l.length : Int) + 1 := by simpa using h
      simp [h1, alGet_alSet_self]
  · simp [h, alGet_alSet_self]

theorem runCalls_allowed_eq_runQ (uid : Int) (ts : List Int) (rl : RateLimiter) :
    allowedTimes (rl.runCalls uid ts).1
      = allowedTimesQ (runQ rl.max_requests rl.window_seconds (rl.queueOf uid) ts).1 := by
  induction ts generalizing rl with
  | nil => rfl
  | cons t rest ih =>
    obtain ⟨hmax, hw, hq, hflag⟩ := is_allowed_as_stepQ rl uid t
    have ihr := ih ((rl.is_allowed uid t).2)
    rw [hmax, hw, hq] at ihr
    simp only [RateLimiter.runCalls, runQ, allowedTimes, allowedTimesQ, List.filter_cons]
    rw [hflag]
    by_cases hb : (stepQ rl.max_requests rl.window_seconds (rl.queueOf uid) t).1 = true
    · simp only [hb, if_true, if_pos, List.map_cons]
      exact congrArg (List.cons t) ihr
    · simp only [Bool.not_eq_true] at hb
      simp only [hb, Bool.false_eq_true, if_false, if_neg, not_false_iff]
      exact ihr

/-! ## The sliding-window admission invariant -/

theorem runQ_window_le (maxR w : Int) (hw : 0 < w) (hmax : 0 ≤ maxR) :
    ∀ (ts : List Int) (T : Int) (A : List Int) (x : Int),
      List.Chain (· ≤ ·) T ts →
      (∀ s ∈ A, s ≤ T) →
      List.Pairwise (· ≤ ·) A →
      (∀ y, (countW A y w : Int) ≤ maxR) →
      (countW (A ++ allowedTimesQ
          (runQ maxR w (A.filter (fun s => decide (T - w < s))) ts).1) x w : Int) ≤ maxR := by
  intro ts
  induction ts with
  | nil =>
    intro T A x _ _ _ hbound
    simpa [runQ, allowedTimesQ, countW] using hbound x
  | cons t rest ih =>
    intro T A x hchain hub hpw hbound
    obtain ⟨hTt, hchain'⟩ := List.chain_cons.mp hchain
    have hpwq : List.Pairwise (· ≤ ·) (A.filter (fun s => decide (T - w < s))) :=
      hpw.filter _
    have hdrop : (A.filter (fun s => decide (T - w < s))).dropWhile (fun s => decide (s ≤ t - w))
        = A.filter (fun s => decide (t - w < s)) := by
      rw [dropWhile_le_eq_filter (t - w) _ hpwq, List.filter_filter]
      apply List.filter_congr
      intro s _
      by_cases h : t - w < s
      · have hT : T - w < s := by omega
        simp [h, hT]
      · simp [h]
    simp only [runQ, stepQ, hdrop]
    by_cases hcond : maxR ≤ ((A.filter (fun s => decide (t - w < s))).length : Int)
    · have hub' : ∀ s ∈ A, s ≤ t := fun s hs => le_trans (hub s hs) hTt
      have := ih t A x hchain' hub' hpw hbound
      simpa [hcond, allowedTimesQ, List.filter_cons] using this
    · have hlt : ((A.filter (fun s => decide (t - w < s))).length : Int) < maxR :=
        not_le.mp hcond
      have hfilt : (A ++ [t]).filter (fun s => decide (t - w < s))
          = A.filter (fun s => decide (t - w < s)) ++ [t] := by
        rw [List.filter_append]
        have : t - w < t := by omega
        simp [List.filter_cons, this]
      have hub' : ∀ s ∈ A ++ [t], s ≤ t := by
        intro s hs
        rcases List.mem_append.mp hs with h | h
        · exact le_trans (hub s h) hTt
        · simp at h
          omega
      have hpw' : List.Pairwise (· ≤ ·) (A ++ [t]) := by
        apply List.pairwise_append.mpr
        refine ⟨hpw, List.pairwise_singleton _ _, ?_⟩
        intro a ha b hb
        simp at hb
        subst hb
        exact le_trans (hub a ha) hTt
      have hbound' : ∀ y, (countW (A ++ [t]) y w : Int) ≤ maxR := by
        intro y
        have hsplit : countW (A ++ [t]) y w = countW A y w + countW [t] y w := by
          unfold countW
          rw [List.filter_append, List.length_append]
        by_cases hin : inWin y w t = true
        · have himp : ∀ a, inWin y w a = true → decide (t - w < a) = true := by
            intro a h
            simp only [inWin, Bool.and_eq_true, decide_eq_true_eq] at h hin
            exact decide_eq_true (by omega)
          have h1 : countW A y w ≤ (A.filter (fun s => decide (t - w < s))).length :=
            length_filter_mono (inWin y w) (fun s => decide (t - w < s)) A himp
          have h2 : countW [t] y w = 1 := by
            simp [countW, List.filter_cons, hin]
          rw [hsplit, h2]
          omega
        · have h2 : countW [t] y w = 0 := by
            simp [countW, List.filter_cons, hin]
          have := hbound y
          rw [hsplit, h2]
          omega
      have := ih t (A ++ [t]) x hchain' hub' hpw' hbound'
      rw [hfilt] at this
      have hres : A ++ t :: allowedTimesQ (runQ maxR w
            (A.filter (fun s => decide (t - w < s)) ++ [t]) rest).1
          = (A ++ [t]) ++ allowedTimesQ (runQ maxR w
            (A.filter (fun s => decide (t - w < s)) ++ [t]) rest).1 := by
        simp
      simpa [hcond, allowedTimesQ, List.filter_cons, hres] using this

/-! ## Claims -/

/-- C1: for every sequence of `is_allowed` calls for a single user identity
made at non-decreasing instants (the environment supplies a monotone clock)
under a non-negative limit, the number of calls that return `allowed = true`
whose instants fall within any single interval `(x, x + windowSeconds]` of
length `windowSeconds` never exceeds `maxRequestsPerWindow`. -/
theorem C1_sliding_window_bound (maxR w uid x : Int) (ts : List Int)
    (hmax : 0 ≤ maxR) (hmono : List.Chain' (· ≤ ·) ts) :
    (countW (allowedTimes ((RateLimiter.init maxR w).runCalls uid ts).1) x w : Int) ≤ maxR := by
  rw [runCalls_allowed_eq_runQ]
  show (countW (allowedTimesQ (runQ maxR w [] ts).1) x w : Int) ≤ maxR
  by_cases hw : 0 < w
  · cases ts with
    | nil => simpa [runQ, allowedTimesQ, countW] using hmax
    | cons t rest =>
      have hchain : List.Chain (· ≤ ·) t (t :: rest) :=
        List.chain_cons.mpr ⟨le_refl t, hmono⟩
      have hbound : ∀ y, (countW ([] : List Int) y w : Int) ≤ maxR := by
        intro y
        simpa [countW] using hmax
      have := runQ_window_le maxR w hw hmax (t :: rest) t [] x hchain
        (by intro s hs; simp at hs) List.Pairwise.nil hbound
      simpa using this
  · have hzero : countW (allowedTimesQ (runQ maxR w [] ts).1) x w = 0 := by
      unfold countW
      have : (allowedTimesQ (runQ maxR w [] ts).1).filter (inWin x w) = [] := by
        apply List.filter_eq_nil_iff.mpr
        intro a _
        simp only [inWin, Bool.and_eq_true, decide_eq_true_eq, not_and]
        intro h1 h2
        omega
      simp [this]
    rw [hzero]
    exact_mod_cast hmax

/-- C1 witness: three calls at instants 0, 1, 2 under limit 2 per 60s; the
window `(-1, 59]` holds at most 2 allowed calls. -/
theorem C1_sliding_window_bound_witness :
    (countW (allowedTimes ((RateLimiter.init 2 60).runCalls 7 [0, 1, 2]).1) (-1) 60 : Int) ≤ 2 :=
  C1_sliding_window_bound 2 60 7 (-1) [0, 1, 2] (by decide)
    (List.chain'_cons.mpr ⟨by decide, List.chain'_cons.mpr ⟨by decide, List.chain'_singleton _⟩⟩)

/-- C3: under a positive limit, a denied `is_allowed` call returns
`retry_after` equal to exactly `oldest + window_seconds - now`, where `oldest`
is the head of the purged queue (the oldest timestamp still in the window),
and the retry figure recomputed from the returned `reset_at` at any strictly
later instant — with no intervening calls — is strictly smaller. -/
theorem C3_retry_after_exact (rl : RateLimiter) (uid now : Int) (info : RateInfo)
    (hmax : 1 ≤ rl.max_requests)
    (hden : ((rl.is_allowed uid now).1) = some (false, info)) :
    (∃ oldest,
       ((rl.queueOf uid).dropWhile (fun s => decide (s ≤ now - rl.window_seconds))).head?
         = some oldest
       ∧ info.retry_after = oldest + rl.window_seconds - now)
    ∧ ∀ now2, now < now2 → info.reset_at - now2 < info.retry_after := by
  simp only [RateLimiter.is_allowed] at hden
  by_cases hc : rl.max_requests ≤
      (((rl.queueOf uid).dropWhile (fun s => decide (s ≤ now - rl.window_seconds))).length : Int)
  · cases hq : (rl.queueOf uid).dropWhile (fun s => decide (s ≤ now - rl.window_seconds)) with
    | nil =>
      rw [hq] at hc
      simp at hc
      omega
    | cons a l =>
      rw [hq] at hden
      rw [if_pos (show rl.max_requests ≤ ((a :: l).length : Int) from hq ▸ hc)] at hden
      have hden2 : (some (false,
          RateInfo.mk 0 (a + rl.window_seconds) (a + rl.window_seconds - now))
            : Option (Bool × RateInfo)) = some (false, info) := hden
      have hinfo : RateInfo.mk 0 (a + rl.window_seconds) (a + rl.window_seconds - now)
          = info := congrArg Prod.snd (Option.some.inj hden2)
      constructor
      · refine ⟨a, rfl, ?_⟩
        rw [← hinfo]
      · intro now2 h2
        rw [← hinfo]
        show a + rl.window_seconds - now2 < a + rl.window_seconds - now
        omega
  · rw [if_neg hc] at hden
    simp at hden

/-- C3 witness: limit 1 per 60s, allowed call at 0, denied call at 10; the
returned `retry_after` is `0 + 60 - 10 = 50` and shrinks after instant 10. -/
theorem C3_retry_after_exact_witness :
    (∃ oldest,
       ((exRL1.queueOf 7).dropWhile (fun s => decide (s ≤ 10 - exRL1.window_seconds))).head?
         = some oldest
       ∧ (RateInfo.mk 0 60 50).retry_after = oldest + exRL1.window_seconds - 10)
    ∧ ∀ now2, 10 < now2 →
        (RateInfo.mk 0 60 50).reset_at - now2 < (RateInfo.mk 0 60 50).retry_after :=
  C3_retry_after_exact exRL1 7 10 (RateInfo.mk 0 60 50) (by decide) (by decide)

/-- C9: the claim that invalid numeric configuration is rejected eagerly at
construction is false — both constructors are plain field assignments; a
negative limit and negative window are accepted and stored verbatim, and the
invalid limit only surfaces later: the very first `is_allowed` call takes the
denial branch with an empty queue and raises `IndexError` at `user_queue[0]`
(result slot `none`) instead of returning. -/
theorem C9_counterexample :
    (RateLimiter.init (-5) (-10)).max_requests = -5
    ∧ (RateLimiter.init (-5) (-10)).window_seconds = -10
    ∧ (ConversationManager.init (-3) (-7)).max_history = -3
    ∧ (ConversationManager.init (-3) (-7)).timeout_seconds = -7
    ∧ (((RateLimiter.init (-5) (-10)).is_allowed 1 0).1) = none := by
  decide

/-- C9 amended: construction never fails: the constructors store any numeric
configuration verbatim (no validation), and anomalous behaviour surfaces only
at later operations — under a non-positive `max_requests` the very first
request already raises `IndexError` (no value is returned) rather than any
error being reported at construction time. -/
theorem C9_no_eager_validation (m w mh ts uid now : Int) (hm : m ≤ 0) :
    (RateLimiter.init m w).max_requests = m
    ∧ (RateLimiter.init m w).window_seconds = w
    ∧ (ConversationManager.init mh ts).max_history = mh
    ∧ (ConversationManager.init mh ts).timeout_seconds = ts
    ∧ (((RateLimiter.init m w).is_allowed uid now).1) = none := by
  refine ⟨rfl, rfl, rfl, rfl, ?_⟩
  simp only [RateLimiter.is_allowed]
  have hq : (RateLimiter.init m w).queueOf uid = [] := rfl
  rw [hq]
  simp only [List.dropWhile_nil, List.length_nil, Nat.cast_zero]
  have hcond : (RateLimiter.init m w).max_requests ≤ (0 : Int) := hm
  rw [if_pos hcond]

/-- C9 witness for the amended statement at `m = -5`, `w = -10`. -/
theorem C9_no_eager_validation_witness :
    (RateLimiter.init (-5) (-10)).max_requests = -5
    ∧ (RateLimiter.init (-5) (-10)).window_seconds = -10
    ∧ (ConversationManager.init (-3) (-7)).max_history = -3
    ∧ (ConversationManager.init (-3) (-7)).timeout_seconds = -7
    ∧ (((RateLimiter.init (-5) (-10)).is_allowed 1 0).1) = none :=
  C9_no_eager_validation (-5) (-10) (-3) (-7) 1 0 (by decide)

/-- C10: a read-only query on a never-observed identity creates a default
record as a side effect: after `RateLimiter.get_user_stats`, or
`ConversationManager.get_conversation` / `get_user_stats`, the respective
store's `get_global_stats().total_users` has grown by one. -/
theorem C10_reads_create_records (rl : RateLimiter) (cm : ConversationManager)
    (uidA uidB uidC now now' : Int)
    (h1 : alGet rl.user_stats uidA = none)
    (h2 : alGet cm.conversations uidB = none)
    (h3 : alGet cm.conversations uidC = none) :
    ((rl.get_user_stats uidA).2).get_global_stats.total_users
      = rl.get_global_stats.total_users + 1
    ∧ (((cm.get_conversation uidB now).2).get_global_stats now).total_users
      = (cm.get_global_stats now).total_users + 1
    ∧ (((cm.get_user_stats uidC now').2).get_global_stats now').total_users
      = (cm.get_global_stats now').total_users + 1 := by
  refine ⟨?_, ?_, ?_⟩
  · simp only [RateLimiter.get_user_stats, RateLimiter.get_global_stats]
    exact length_alSet_of_none rl.user_stats uidA _ h1
  · simp only [ConversationManager.get_conversation, ConversationManager.get_global_stats]
    by_cases hto : cm.timeout_seconds < now - ((alGet cm.conversations uidB).getD (Conversation.fresh now)).last_activity
    · simp only [hto, if_true, if_pos]
      exact length_alSet_of_none cm.conversations uidB _ h2
    · simp only [hto, if_false, if_neg, not_false_iff]
      exact length_alSet_of_none cm.conversations uidB _ h2
  · simp only [ConversationManager.get_user_stats, ConversationManager.get_global_stats]
    exact length_alSet_of_none cm.conversations uidC _ h3

/-- C10 witness: on empty stores, each of the three queries for a new
identity bumps `total_users` from 0 to 1. -/
theorem C10_reads_create_records_witness :
    (((RateLimiter.init 20 3600).get_user_stats 1).2).get_global_stats.total_users
      = (RateLimiter.init 20 3600).get_global_stats.total_users + 1
    ∧ ((((ConversationManager.init 10 3600).get_conversation 2 0).2).get_global_stats 0).total_users
      = ((ConversationManager.init 10 3600).get_global_stats 0).total_users + 1
    ∧ ((((ConversationManager.init 10 3600).get_user_stats 3 0).2).get_global_stats 0).total_users
      = ((ConversationManager.init 10 3600).get_global_stats 0).total_users + 1 :=
  C10_reads_create_records (RateLimiter.init 20 3600) (ConversationManager.init 10 3600)
    1 2 3 0 0 rfl rfl rfl

/-- C4: for a stored record whose idle time exceeds `timeout_seconds` (under
a valid configuration), `get_conversation` returns the empty sequence and
leaves the store completely unchanged, while a subsequent `add_message` at
the same instant resets the record, so reading right after the append yields
exactly the newly appended message. -/
theorem C4_expiry_read_vs_append (cm : ConversationManager) (uid now2 : Int)
    (role content : String) (conv : Conversation)
    (hconv : alGet cm.conversations uid = some conv)
    (hexp : cm.timeout_seconds < now2 - conv.last_activity)
    (hmh : 1 ≤ cm.max_history) (hto : 0 ≤ cm.timeout_seconds) :
    (cm.get_conversation uid now2).1 = []
    ∧ (cm.get_conversation uid now2).2 = cm
    ∧ ((cm.add_message uid role content now2).get_conversation uid now2).1
        = [(role, content)] := by
  have hset : alSet cm.conversations uid conv = cm.conversations := alSet_eq_self _ _ _ hconv
  refine ⟨?_, ?_, ?_⟩
  · simp only [ConversationManager.get_conversation, hconv, Option.getD_some]
    rw [if_pos hexp]
  · simp only [ConversationManager.get_conversation, hconv, Option.getD_some, hset]
    rw [if_pos hexp]
  · have htrim : trimMessages cm.max_history
        [{ role := role, content := content, timestamp := now2 }]
        = [{ role := role, content := content, timestamp := now2 }] := by
      unfold trimMessages
      rw [if_neg]
      simp only [List.length_cons, List.length_nil]
      push_cast
      omega
    have hmsg : alGet (cm.add_message uid role content now2).conversations uid
        = some { messages := [{ role := role, content := content, timestamp := now2 }],
                 created_at := now2, last_activity := now2 } := by
      simp only [ConversationManager.add_message, hconv, Option.getD_some]
      rw [if_pos hexp]
      simp only [List.nil_append, htrim]
      exact alGet_alSet_self _ _ _
    simp only [ConversationManager.get_conversation, hmsg, Option.getD_some]
    have hts : (cm.add_message uid role content now2).timeout_seconds = cm.timeout_seconds := rfl
    rw [if_neg (by rw [hts]; omega)]
    simp

/-- C4 witness: record last active at 0, timeout 3600, read and append at
instant 5000. -/
theorem C4_expiry_read_vs_append_witness :
    (exCM4.get_conversation 1 5000).1 = []
    ∧ (exCM4.get_conversation 1 5000).2 = exCM4
    ∧ ((exCM4.add_message 1 "user" "again" 5000).get_conversation 1 5000).1
        = [("user", "again")] :=
  C4_expiry_read_vs_append exCM4 1 5000 "user" "again"
    { messages := [{ role := "user", content := "hi", timestamp := 0 }],
      created_at := 0, last_activity := 0 }
    (by decide) (by decide) (by decide) (by decide)

/-- C5: the claim that `get_user_stats` purges stale timestamps before
reporting is false: after a single allowed call at instant 0 under a 60s
window, the report at any later instant still counts the stale timestamp
(`current_requests_in_window = 1` although no timestamp lies in the window
`(940, 1000]` of a call at instant 1000), and the stale entry is still stored
afterwards. -/
theorem C5_counterexample :
    ((exRL5.get_user_stats 7).1).current_requests_in_window = 1
    ∧ countW (exRL5.queueOf 7) (1000 - exRL5.window_seconds) exRL5.window_seconds = 0
    ∧ ((exRL5.get_user_stats 7).2).queueOf 7 = [0] := by
  decide

/-- C5 amended: `get_user_stats` is read-only — it leaves the store unchanged
(for identities it has already seen) and does not mutate `total_requests`,
`blocked_requests`, `first_request` or `last_request` — but it performs no
purge: `current_requests_in_window` is the raw stored queue length, which may
count timestamps outside the current sliding window. -/
theorem C5_stats_read_only_no_purge (rl : RateLimiter) (uid : Int)
    (st : UserStats) (q : List Int)
    (h1 : alGet rl.user_stats uid = some st)
    (h2 : alGet rl.user_requests uid = some q) :
    (rl.get_user_stats uid).1
      = { total_requests := st.total_requests,
          blocked_requests := st.blocked_requests,
          first_request := st.first_request,
          last_request := st.last_request,
          current_requests_in_window := q.length,
          remaining_requests := max 0 (rl.max_requests - (q.length : Int)) }
    ∧ (rl.get_user_stats uid).2 = rl := by
  refine ⟨?_, ?_⟩
  · simp [RateLimiter.get_user_stats, RateLimiter.queueOf, h1, h2]
  · simp only [RateLimiter.get_user_stats, RateLimiter.queueOf, h1, h2, Option.getD_some]
    rw [alSet_eq_self _ _ _ h1, alSet_eq_self _ _ _ h2]

/-- C5 witness for the amended statement, on the post-call state `exRL5`. -/
theorem C5_stats_read_only_no_purge_witness :
    (exRL5.get_user_stats 7).1
      = { total_requests := 1, blocked_requests := 0,
          first_request := some 0, last_request := some 0,
          current_requests_in_window := 1,
          remaining_requests := max 0 (exRL5.max_requests - ((1 : Nat) : Int)) }
    ∧ (exRL5.get_user_stats 7).2 = exRL5 :=
  C5_stats_read_only_no_purge exRL5 7
    { total_requests := 1, blocked_requests := 0,
      first_request := some 0, last_request := some 0 }
    [0] (by decide) (by decide)

/-- C7: the claim that `get_global_stats` reports `active_users` as the
number of identities with a non-empty queue after purging entries older than
`now - window_seconds` is false: the function takes no clock and purges
nothing, so at instant 1000 the state `exRL5` (one stale timestamp, 60s
window) reports 1 active user while the purged count is 0. -/
theorem C7_counterexample :
    exRL5.get_global_stats.active_users = 1
    ∧ activeUsersAfterPurge exRL5 1000 = 0 := by
  decide

/-- C7 amended: `get_global_stats` reports `active_users` as the number of
identities whose stored queue is non-empty, with no purge (stale timestamps
keep a user "active"); `success_rate` equals
`(total_requests - blocked_requests) / total_requests` exactly, and `1` when
`total_requests = 0`. -/
theorem C7_global_stats_no_purge (rl : RateLimiter) :
    rl.get_global_stats.active_users
      = rl.user_requests.countP (fun p => !p.2.isEmpty)
    ∧ (0 < rl.get_global_stats.total_requests →
        rl.get_global_stats.success_rate
          = ((rl.get_global_stats.total_requests : ℚ)
              - (rl.get_global_stats.blocked_requests : ℚ))
            / (rl.get_global_stats.total_requests : ℚ))
    ∧ (rl.get_global_stats.total_requests = 0 →
        rl.get_global_stats.success_rate = 1) := by
  refine ⟨?_, ?_, ?_⟩
  · simp only [RateLimiter.get_global_stats]
    exact (List.countP_eq_length_filter _ _).symm
  · intro h
    simp only [RateLimiter.get_global_stats] at h ⊢
    rw [if_pos h]
  · intro h
    simp only [RateLimiter.get_global_stats] at h ⊢
    rw [if_neg (by omega)]

/-- C7 witness for the amended statement on `exRL5` (one user, one request,
none blocked: success rate `(1 - 0) / 1`). -/
theorem C7_global_stats_no_purge_witness :
    exRL5.get_global_stats.active_users
      = exRL5.user_requests.countP (fun p => !p.2.isEmpty)
    ∧ exRL5.get_global_stats.success_rate
        = ((exRL5.get_global_stats.total_requests : ℚ)
            - (exRL5.get_global_stats.blocked_requests : ℚ))
          / (exRL5.get_global_stats.total_requests : ℚ) :=
  ⟨(C7_global_stats_no_purge exRL5).1,
   (C7_global_stats_no_purge exRL5).2.1 (by decide)⟩

/-- C8: `cleanup_expired_conversations` run at `now` deletes exactly the
records with `now - last_activity > 2 * timeout_seconds`: such identities
look up to `none` afterwards, every other record is returned completely
unchanged, and the returned count is the number of deleted records
(stated for stores with distinct keys, the Python `dict` invariant). -/
theorem C8_sweep_deletes_exactly_expired (cm : ConversationManager) (now : Int)
    (hnd : (cm.conversations.map Prod.fst).Nodup) :
    (∀ uid conv, alGet cm.conversations uid = some conv →
        alGet ((cm.cleanup_expired_conversations now).2).conversations uid
          = if cm.timeout_seconds * 2 < now - conv.last_activity then none else some conv)
    ∧ (∀ uid, alGet cm.conversations uid = none →
        alGet ((cm.cleanup_expired_conversations now).2).conversations uid = none)
    ∧ (cm.cleanup_expired_conversations now).1
        = cm.conversations.countP
            (fun p => decide (cm.timeout_seconds * 2 < now - p.2.last_activity)) := by
  refine ⟨?_, ?_, ?_⟩
  · intro uid conv hget
    simp only [ConversationManager.cleanup_expired_conversations]
    rw [alGet_filter_some _ _ _ _ hnd hget]
    by_cases hcond : cm.timeout_seconds * 2 < now - conv.last_activity
    · simp [hcond]
    · simp [hcond]
  · intro uid hget
    simp only [ConversationManager.cleanup_expired_conversations]
    exact alGet_filter_none _ _ _ hget
  · simp only [ConversationManager.cleanup_expired_conversations]
    rw [List.countP_eq_length_filter]
    congr 1
    apply List.filter_congr
    intro p _
    simp

/-- C8 witness: timeout 3600, sweep at instant 7300 deletes the record idle
since 0 (idle 7300 > 7200) and keeps the record last active at 7000. -/
theorem C8_sweep_deletes_exactly_expired_witness :
    alGet ((exCM8.cleanup_expired_conversations 7300).2).conversations 1 = none
    ∧ alGet ((exCM8.cleanup_expired_conversations 7300).2).conversations 2
        = some { messages := [{ role := "user", content := "new", timestamp := 7000 }],
                 created_at := 7000, last_activity := 7000 }
    ∧ (exCM8.cleanup_expired_conversations 7300).1 = 1 := by
  obtain ⟨hA, hB, hC⟩ := C8_sweep_deletes_exactly_expired exCM8 7300 (by decide)
  refine ⟨?_, ?_, ?_⟩
  · rw [hA 1 ⟨[⟨"user", "old", 0⟩], 0, 0⟩ (by decide)]
    decide
  · rw [hA 2 ⟨[⟨"user", "new", 7000⟩], 7000, 7000⟩ (by decide)]
    decide
  · rw [hC]
    decide

/-- When the trim fires with at least `max_history` system messages, the
Python slice `[-(max_history - systemCount):]` has a non-negative start
index, so it keeps all non-system messages except the first
`systemCount - max_history` of them — not zero of them. -/
theorem trimMessages_sys_ge (maxH : Int) (msgs : List Message)
    (hlen : maxH < (msgs.length : Int))
    (hsys : maxH ≤ ((msgs.filter Message.isSystem).length : Int)) :
    trimMessages maxH msgs
      = msgs.filter Message.isSystem
        ++ (msgs.filter (fun m => ! m.isSystem)).drop
             (((msgs.filter Message.isSystem).length : Int) - maxH).toNat := by
  have hco := length_filter_add_length_filter_not msgs Message.isSystem
  simp only [trimMessages, pySliceFrom]
  rw [if_pos hlen]
  rw [if_pos (by omega)]
  rw [if_neg (by omega)]
  congr 2
  omega

/-- When the trim fires on a history exactly one over `max_history` and the
system messages number fewer than `max_history`, the slice keeps the last
`max_history - systemCount` non-system messages, i.e. drops exactly the
oldest one. -/
theorem trimMessages_one_over (maxH : Int) (msgs : List Message)
    (hlen : (msgs.length : Int) = maxH + 1)
    (hsys : ((msgs.filter Message.isSystem).length : Int) < maxH) :
    trimMessages maxH msgs
      = msgs.filter Message.isSystem ++ (msgs.filter (fun m => ! m.isSystem)).drop 1 := by
  have hco := length_filter_add_length_filter_not msgs Message.isSystem
  simp only [trimMessages, pySliceFrom]
  rw [if_pos (by omega)]
  rw [if_pos (by omega)]
  rw [if_pos (by omega)]
  congr 2
  omega

/-- C2: the claim that an append overflowing `max_history` with at least
`max_history` stored system messages leaves zero non-system messages is
false: with `max_history = 2`, two system messages and an overflowing
non-system append, the premise holds (length 3 exceeds 2, system count 2 is
at least 2) yet one non-system message is kept — the slice `[-0:]` keeps
everything. -/
theorem C2_counterexample :
    ((alGet exC2.conversations 1).getD (Conversation.fresh 0)).messages.length = 3
    ∧ (((alGet exC2.conversations 1).getD (Conversation.fresh 0)).messages.filter
        Message.isSystem).length = 2
    ∧ (((alGet exC2.conversations 1).getD (Conversation.fresh 0)).messages.filter
        (fun m => ! m.isSystem)).length = 1 := by
  decide

/-- C2 amended: when an append (with no timeout) overflows `max_history` and
the appended history holds at least `max_history` system messages, the store
afterwards contains all system messages followed by the non-system messages
with only the first `systemCount - max_history` of them removed (in
particular, all of them are kept when `systemCount = max_history`). -/
theorem C2_trim_keeps_nonsystem_overflow (cm : ConversationManager) (uid : Int)
    (role content : String) (now : Int) (conv : Conversation)
    (hconv : alGet cm.conversations uid = some conv)
    (hact : now - conv.last_activity ≤ cm.timeout_seconds)
    (hlen : cm.max_history < (conv.messages.length : Int) + 1)
    (hsys : cm.max_history ≤
      (((conv.messages ++ [Message.mk role content now]).filter Message.isSystem).length : Int)) :
    alGet (cm.add_message uid role content now).conversations uid
      = some { messages :=
                 (conv.messages ++ [Message.mk role content now]).filter Message.isSystem
                 ++ ((conv.messages ++ [Message.mk role content now]).filter
                      (fun m => ! m.isSystem)).drop
                      ((((conv.messages ++ [Message.mk role content now]).filter
                          Message.isSystem).length : Int) - cm.max_history).toNat,
               created_at := conv.created_at,
               last_activity := now } := by
  have hlen' : cm.max_history < ((conv.messages ++ [Message.mk role content now]).length : Int) := by
    simp only [List.length_append, List.length_cons, List.length_nil]
    push_cast
    omega
  simp only [ConversationManager.add_message, hconv, Option.getD_some]
  rw [if_neg (by omega)]
  rw [trimMessages_sys_ge cm.max_history (conv.messages ++ [Message.mk role content now]) hlen' hsys]
  exact alGet_alSet_self _ _ _

/-- C2 witness for the amended statement: the `exC2pre` scenario, where the
appended non-system message survives the trim. -/
theorem C2_trim_keeps_nonsystem_overflow_witness :
    alGet (exC2pre.add_message 1 "user" "u1" 2).conversations 1
      = some (Conversation.mk
          [Message.mk "system" "s1" 0, Message.mk "system" "s2" 1, Message.mk "user" "u1" 2] 0 2) :=
  (C2_trim_keeps_nonsystem_overflow exC2pre 1 "user" "u1" 2
      (Conversation.mk [Message.mk "system" "s1" 0, Message.mk "system" "s2" 1] 0 1)
      (by decide) (by decide) (by decide) (by decide)).trans (by decide)

/-- C6: the claim that appending one message to an at-capacity conversation
with `k < max_history` system messages always yields exactly `max_history`
stored messages is false when the appended message is itself system-role and
`k = max_history - 1`: with `max_history = 2` and stored `[system, user]`,
appending a system message leaves 3 messages and drops nothing. -/
theorem C6_counterexample :
    ((alGet exC6pre.conversations 1).getD (Conversation.fresh 0)).messages.length = 2
    ∧ (((alGet exC6pre.conversations 1).getD (Conversation.fresh 0)).messages.filter
        Message.isSystem).length = 1
    ∧ exC6pre.max_history = 2
    ∧ ((alGet exC6.conversations 1).getD (Conversation.fresh 0)).messages.length = 3 := by
  decide

/-- C6 amended: appending one message (with no timeout) to a conversation
holding exactly `max_history` messages yields — provided the appended history
still has fewer than `max_history` system messages — a stored history of the
system messages followed by the non-system messages minus the oldest one, of
length exactly `max_history` (so system messages are intact and the relative
order of the surviving non-system messages is preserved). -/
theorem C6_trim_drops_oldest_nonsystem (cm : ConversationManager) (uid : Int)
    (role content : String) (now : Int) (conv : Conversation)
    (hconv : alGet cm.conversations uid = some conv)
    (hact : now - conv.last_activity ≤ cm.timeout_seconds)
    (hlen : (conv.messages.length : Int) = cm.max_history)
    (hsys : (((conv.messages ++ [Message.mk role content now]).filter
        Message.isSystem).length : Int) < cm.max_history) :
    alGet (cm.add_message uid role content now).conversations uid
      = some { messages :=
                 (conv.messages ++ [Message.mk role content now]).filter Message.isSystem
                 ++ ((conv.messages ++ [Message.mk role content now]).filter
                      (fun m => ! m.isSystem)).drop 1,
               created_at := conv.created_at,
               last_activity := now }
    ∧ ((((conv.messages ++ [Message.mk role content now]).filter Message.isSystem)
          ++ ((conv.messages ++ [Message.mk role content now]).filter
               (fun m => ! m.isSystem)).drop 1).length : Int)
        = cm.max_history := by
  have hco := length_filter_add_length_filter_not
    (conv.messages ++ [Message.mk role content now]) Message.isSystem
  have hlen' : ((conv.messages ++ [Message.mk role content now]).length : Int)
      = cm.max_history + 1 := by
    simp only [List.length_append, List.length_cons, List.length_nil]
    push_cast
    omega
  constructor
  · simp only [ConversationManager.add_message, hconv, Option.getD_some]
    rw [if_neg (by omega)]
    rw [trimMessages_one_over cm.max_history (conv.messages ++ [Message.mk role content now]) hlen' hsys]
    exact alGet_alSet_self _ _ _
  · simp only [List.length_append, List.length_drop]
    push_cast
    omega

/-- C6 witness for the amended statement: appending `user:"c"` to the
at-capacity `[system:"a", user:"b"]` store keeps the system message, drops
the oldest non-system message `"b"`, and stays at length 2. -/
theorem C6_trim_drops_oldest_nonsystem_witness :
    alGet (exC6pre.add_message 1 "user" "c" 2).conversations 1
      = some (Conversation.mk [Message.mk "system" "a" 0, Message.mk "user" "c" 2] 0 2)
    ∧ ((alGet (exC6pre.add_message 1 "user" "c" 2).conversations 1).getD
        (Conversation.fresh 0)).messages.length = 2 := by
  have h := C6_trim_drops_oldest_nonsystem exC6pre 1 "user" "c" 2
      (Conversation.mk [Message.mk "system" "a" 0, Message.mk "user" "b" 1] 0 1)
      (by decide) (by decide) (by decide) (by decide)
  have h1 := h.1
  refine ⟨h1.trans (by decide), ?_⟩
  rw [h1]
  decide
